import Mathlib

/-!
Verification of `scripts/object_spawner.py` (the `object_spawner` repository):
a shallow embedding of its data model (`Model`), name de-duplication
(`rename_duplicates`), configuration parsing (`parse_yaml`), pose conversion
and spawn dispatch (`spawn_model`), and the main spawning loop
(`object_spawner_main`), together with theorems settling the specification
claims.

External collaborators (rospkg package lookup, the filesystem, the YAML
loader, the gazebo spawn services and the outcome of the remote call) are
abstracted as oracles passed in an environment.  Numeric configuration values
are embedded as rationals; the trigonometric pose conversion is carried out
over the reals.  Log messages are embedded by their fixed prefixes; the
exception texts the script appends come from external exception objects and
are omitted.
-/

/-- Number of occurrences of a string in a list (Python `list.count` style),
used to state properties of the de-duplication. -/
def countOcc (x : String) : List String → Nat
  | [] => 0
  | y :: ys => (if y = x then 1 else 0) + countOcc x ys

/-- The loop body of `rename_duplicates` (lines 54-61): `seen` is the Python
dict mapping a name to the count stored for it; a fresh name is recorded with
count 0 and yielded unchanged, a repeated name increments its count `n` to
`n + 1` and yields `"%s_%d" % (x, seen[x])`. -/
def rename_duplicates_go (seen : String → Option Nat) : List String → List String
  | [] => []
  | x :: xs =>
    match seen x with
    | some n =>
        (x ++ "_" ++ toString (n + 1)) ::
          rename_duplicates_go (fun y => if y = x then some (n + 1) else seen y) xs
    | none =>
        x :: rename_duplicates_go (fun y => if y = x then some 0 else seen y) xs

/-- `rename_duplicates` (lines 49-61): append count numbers to duplicate
names in a list, starting from an empty `seen` dict. -/
def rename_duplicates (old : List String) : List String :=
  rename_duplicates_go (fun _ => none) old

/-- The `seen` dict of `rename_duplicates` after processing the prefix `p`:
a name maps to (number of its occurrences in `p`) minus one, and is absent
when it has not occurred. -/
def seenOf (p : List String) : String → Option Nat :=
  fun x => if countOcc x p = 0 then none else some (countOcc x p - 1)

/-- Reference form of the de-duplication relative to an already-processed
prefix `p`: the element `x` is yielded unchanged when unseen, else suffixed
with its occurrence count so far. -/
def dedupFrom : List String → List String → List String
  | _, [] => []
  | p, x :: xs =>
      (if countOcc x p = 0 then x else x ++ "_" ++ toString (countOcc x p)) ::
        dedupFrom (p ++ [x]) xs

/-- The `Model` dataclass (lines 16-46).  `pose` and `scale` are lists of
numbers in the source (default `None`); numbers are embedded as rationals. -/
structure Model where
  name : String
  type : String
  base_path : String := "models"
  unique_name : Option String := none
  package : String := ""
  quaternion : Bool := false
  radians : Bool := false
  pose : Option (List ℚ) := none
  scale : Option (List ℚ) := none
deriving DecidableEq

/-- One entry of the parsed YAML `models` list, as handed to `Model(**args)`:
each optional field is present or absent, `name` and `type` are required by
every configuration the script can process. -/
structure YamlEntry where
  name : String
  type : String
  base_path : Option String := none
  unique_name : Option String := none
  package : Option String := none
  quaternion : Option Bool := none
  radians : Option Bool := none
  pose : Option (List ℚ) := none
  scale : Option (List ℚ) := none
deriving DecidableEq

/-- `Model(**args)` (line 99): construct a `Model` from a YAML entry,
falling back to the dataclass defaults for absent keys. -/
def modelOfEntry (e : YamlEntry) : Model :=
  { name := e.name
    type := e.type
    base_path := e.base_path.getD "models"
    unique_name := e.unique_name
    package := e.package.getD ""
    quaternion := e.quaternion.getD false
    radians := e.radians.getD false
    pose := e.pose
    scale := e.scale }

/-- Lines 78-84: the declared name of each entry, preferring an explicit
`unique_name` key when the entry carries one. -/
def modelNamesOf (entries : List YamlEntry) : List String :=
  entries.map (fun e => match e.unique_name with | some u => u | none => e.name)

/-- Python dict assignment `d[k] = v`: overwrite in place when the key
exists (keeping its insertion position), else append. -/
def dictInsert : List (String × Model) → String → Model → List (String × Model)
  | [], k, v => [(k, v)]
  | (k', v') :: rest, k, v =>
      if k' = k then (k', v) :: rest else (k', v') :: dictInsert rest k v

/-- Lines 93-99: fill `model_dict` by assigning `model_dict[name] = Model(**args)`
for each de-duplicated name and its entry, in order. -/
def buildModelDict : List (String × Model) → List String → List Model → List (String × Model)
  | d, n :: ns, mo :: ms => buildModelDict (dictInsert d n mo) ns ms
  | d, _, _ => d

/-- Python truthiness of the `unique_name` attribute at line 104
(`if not mod_obj.unique_name:`): `None` and the empty string are falsy. -/
def pyTruthy : Option String → Bool
  | none => false
  | some s => !s.isEmpty

/-- Lines 102-106: walk the dict in insertion order with a counter that is
incremented only when a model's `unique_name` is falsy, assigning such a
model `modelNamesUnique[count]`. -/
def assignUniqueNames (names : List String) : List (String × Model) → Nat → List (String × Model)
  | [], _ => []
  | (k, mo) :: rest, count =>
      if pyTruthy mo.unique_name then
        (k, mo) :: assignUniqueNames names rest count
      else
        (k, { mo with unique_name := some (names.getD count "") }) ::
          assignUniqueNames names rest (count + 1)

/-- The registry-building part of `parse_yaml` (lines 78-108), applied to the
entries loaded from the YAML file. -/
def parse_yaml_registry (entries : List YamlEntry) : List (String × Model) :=
  let modelNamesUnique := rename_duplicates (modelNamesOf entries)
  let model_dict := buildModelDict [] modelNamesUnique (entries.map modelOfEntry)
  assignUniqueNames modelNamesUnique model_dict 0

/-- Exceptions of the script that can reach a caller; the handled ones
(`UnboundLocalError` at the handlers of `spawn_model`, `ROSException` at the
bounded service wait) never escape and so need no constructor. -/
inductive Exc where
  | resourceNotFound
  | indexError
  | ioError
  | typeError
  | serviceException
deriving DecidableEq

/-- `parse_yaml` (lines 63-108).  `get_path` is the rospkg oracle (line 70,
`none` means `ResourceNotFound` propagates); paths are character lists so the
Python indexing `yaml_relative_path[0]` and slicing `[1:]` of lines 71-72 are
exact; `fs` abstracts `open` plus `safe_load` of lines 74-76 (`none` for an
unreadable or unparsable file). -/
def parse_yaml (fs : List Char → Option (List YamlEntry))
    (get_path : String → Option (List Char)) (package_name : String)
    (yaml_relative_path : List Char) : Except Exc (List (String × Model)) :=
  match get_path package_name with
  | none => .error .resourceNotFound
  | some base =>
    match yaml_relative_path with
    | [] => .error .indexError
    | c :: rest =>
      let rel := if c = '/' then rest else c :: rest
      match fs (base ++ '/' :: rel) with
      | none => .error .ioError
      | some entries => .ok (parse_yaml_registry entries)

/-- `geometry_msgs.msg.Pose` as filled by `spawn_model` (lines 118-139):
position plus quaternion orientation, over the reals. -/
structure PoseMsg where
  px : ℝ := 0
  py : ℝ := 0
  pz : ℝ := 0
  ox : ℝ := 0
  oy : ℝ := 0
  oz : ℝ := 0
  ow : ℝ := 0

/-- Modelled from the spec: `tf.transformations.quaternion_from_euler` with
the default `sxyz` axes — the standard roll-pitch-yaw convention — returning
the quaternion as `(x, y, z, w)`; the `tf` library is an external collaborator
not contained in this repository. -/
noncomputable def quaternion_from_euler (roll pitch yaw : ℝ) : ℝ × ℝ × ℝ × ℝ :=
  let sr := Real.sin (roll / 2)
  let cr := Real.cos (roll / 2)
  let sp := Real.sin (pitch / 2)
  let cp := Real.cos (pitch / 2)
  let sy := Real.sin (yaw / 2)
  let cy := Real.cos (yaw / 2)
  (sr * cp * cy - cr * sp * sy,
   cr * sp * cy + sr * cp * sy,
   cr * cp * sy - sr * sp * cy,
   cr * cp * cy + sr * sp * sy)

/-- Lines 118-139 of `spawn_model`: fill the `Pose` message from the model's
pose list, converting Euler angles (degrees unless the `radians` flag is set)
to a quaternion when the `quaternion` flag is off.  List indexing is embedded
with `getD`; every claim exercises it only on poses of full length. -/
noncomputable def spawn_pose (model_object : Model) : PoseMsg :=
  let pose := model_object.pose.getD []
  let quat : List ℝ :=
    if model_object.quaternion then (pose.drop 3).map (fun q => (q : ℝ))
    else
      let roll : ℝ := (pose.getD 3 0 : ℚ)
      let pitch : ℝ := (pose.getD 4 0 : ℚ)
      let yaw : ℝ := (pose.getD 5 0 : ℚ)
      let degrees2rad : ℝ := Real.pi / 180
      let roll := if model_object.radians then roll else roll * degrees2rad
      let pitch := if model_object.radians then pitch else pitch * degrees2rad
      let yaw := if model_object.radians then yaw else yaw * degrees2rad
      let q := quaternion_from_euler roll pitch yaw
      [q.1, q.2.1, q.2.2.1, q.2.2.2]
  { px := (pose.getD 0 0 : ℚ)
    py := (pose.getD 1 0 : ℚ)
    pz := (pose.getD 2 0 : ℚ)
    ox := quat.getD 0 0
    oy := quat.getD 1 0
    oz := quat.getD 2 0
    ow := quat.getD 3 0 }

/-- Observable actions of `spawn_model`: log lines, the `print` call, the
service waits (with the timeout argument they pass, if any) and the remote
spawn call itself. -/
inductive SpawnAction where
  | logInfo (msg : String)
  | logDebug (msg : String)
  | logErr (msg : String)
  | printLine (msg : String)
  | waitForService (srv : String) (timeout : Option ℚ)
  | spawnCall (model_name : String) (model_xml : String) (initial_pose : PoseMsg)

/-- The external world seen by `spawn_model`: rospkg lookup, file reads, the
availability of the two gazebo services and the outcome of the remote call
(`none` meaning the call raises `ServiceException`). -/
structure Env where
  getPath : String → Option String
  readFile : String → Option String
  sdfServiceUp : Bool
  urdfServiceUp : Bool
  spawnResult : Option (Bool × String)

/-- Python `str(x)` for the optional `unique_name` attribute as used in the
`%` formatting at line 191 (`None` renders as "None"). -/
def pyStr : Option String → String
  | none => "None"
  | some s => s

/-- Lines 143-149 (first `try` of the sdf branch): resolve the package path;
on `ResourceNotFound` it is logged and neither `model_path` nor `model_xml`
gets bound.  Returns (log actions, `model_path`, `model_xml`). -/
def sdf_resolve_block (env : Env) (package_name base_path : String) :
    List SpawnAction × Option String × Option String :=
  match env.getPath package_name with
  | none => ([SpawnAction.logErr ("Cannot find package [" ++ package_name ++ "]")], none, none)
  | some p => ([], some (p ++ "/" ++ base_path), some "")

/-- Lines 150-156 (second `try` of the sdf branch): open `model.sdf` and
strip newlines.  An unbound `model_path` raises `UnboundLocalError`, caught
at line 155; an unreadable file raises `IOError`, caught at line 153, leaving
`model_xml` as it was.  Returns (log actions, `model_xml`). -/
def sdf_open_block (env : Env) (name : String)
    (model_path model_xml : Option String) : List SpawnAction × Option String :=
  match model_path with
  | none => ([SpawnAction.logDebug "Cannot find package"], model_xml)
  | some mp =>
    match env.readFile (mp ++ "/" ++ name ++ "/model.sdf") with
    | none => ([SpawnAction.logErr ("Cannot find or open model [1] [" ++ name ++ "]")], model_xml)
    | some content => ([], some (content.replace "\n" ""))

/-- Lines 158-165 (third `try` of the sdf branch): wait at most 5 seconds for
`gazebo/spawn_sdf_model`; on timeout the `ROSException` is caught at line 164
and logged, leaving the proxy unbound.  Returns (log actions, proxy). -/
def sdf_service_block (env : Env) : List SpawnAction × Option String :=
  let pre := [SpawnAction.logDebug "Waiting for service gazebo/spawn_sdf_model",
              SpawnAction.waitForService "gazebo/spawn_sdf_model" (some 5)]
  if env.sdfServiceUp then (pre, some "gazebo/spawn_sdf_model")
  else (pre ++ [SpawnAction.logErr "Service call failed"], none)

/-- Lines 168-175 (first `try` of the urdf branch): a missing package raises
`rospkg.ResourceNotFound`, which this handler list (`IOError`,
`UnboundLocalError`) does not catch; otherwise the argument of `open`,
`model_path / model_object.name + '.' + model_object.type`, concatenates a
`pathlib.Path` with `str` and raises `TypeError`, also uncaught.  Returns
(log actions, `model_xml`, escaping exception). -/
def urdf_resolve_block (env : Env) (package_name : String) :
    List SpawnAction × Option String × Option Exc :=
  match env.getPath package_name with
  | none => ([], none, some .resourceNotFound)
  | some _ => ([], none, some .typeError)

/-- Lines 177-184 (second `try` of the urdf branch): the
`rospy.wait_for_service('gazebo/spawn_urdf_model')` call at line 180 passes
no timeout, so with the service unavailable it blocks until the service
appears (the `none` proxy of that arm stands for no return; the arm is in any
case unreachable, since `urdf_resolve_block` always raises first). -/
def urdf_service_block (env : Env) : List SpawnAction × Option String :=
  let pre := [SpawnAction.logDebug "Waiting for service gazebo/spawn_urdf_model",
              SpawnAction.waitForService "gazebo/spawn_urdf_model" none]
  if env.urdfServiceUp then (pre, some "/gazebo/spawn_urdf_model")
  else (pre, none)

/-- Lines 189-200 (final `try`): print, then call the proxy.  Looking up an
unbound `spawn_model_prox` or `model_xml` raises `UnboundLocalError`, caught
at line 199; a `ServiceException` raised by the call itself is not in the
handler list and escapes.  Returns (actions, escaping exception). -/
def final_call_block (env : Env) (model_object : Model)
    (prox model_xml : Option String) (pose_msg : PoseMsg) :
    List SpawnAction × Option Exc :=
  let pr := SpawnAction.printLine ("Now spawning: " ++ pyStr model_object.unique_name)
  match prox with
  | none => ([pr, SpawnAction.logDebug ("Cannot find package [" ++ model_object.package ++ "]")], none)
  | some _ =>
    match model_xml with
    | none => ([pr, SpawnAction.logDebug ("Cannot find package [" ++ model_object.package ++ "]")], none)
    | some xml =>
      let call := SpawnAction.spawnCall (pyStr model_object.unique_name) xml pose_msg
      match env.spawnResult with
      | none => ([pr, call], some .serviceException)
      | some (true, status_message) =>
          ([pr, call,
            SpawnAction.logInfo (status_message ++ " " ++ model_object.name ++ " as "
              ++ pyStr model_object.unique_name)], none)
      | some (false, status_message) =>
          ([pr, call,
            SpawnAction.logErr ("Error: model " ++ model_object.name
              ++ " not spawn, error message = " ++ status_message)], none)

/-- Result of one `spawn_model` call: the emitted actions, the exception that
escapes the function (if any), and the model object as the function leaves
it. -/
structure SpawnOutcome where
  logs : List SpawnAction
  exc : Option Exc
  model : Model

/-- `spawn_model` (lines 110-200): build the pose, dispatch on the model
type, and issue the final proxy call.  The source contains no assignment to
any attribute of `model_object`; the outcome's `model` field records the
object as the function leaves it. -/
noncomputable def spawn_model (env : Env) (model_object : Model) : SpawnOutcome :=
  let pose_msg := spawn_pose model_object
  if model_object.type = "sdf" then
    let r1 := sdf_resolve_block env model_object.package model_object.base_path
    let r2 := sdf_open_block env model_object.name r1.2.1 r1.2.2
    let r3 := sdf_service_block env
    let r4 := final_call_block env model_object r3.2 r2.2 pose_msg
    { logs := r1.1 ++ r2.1 ++ r3.1 ++ r4.1, exc := r4.2, model := model_object }
  else if model_object.type = "urdf" then
    let r1 := urdf_resolve_block env model_object.package
    match r1.2.2 with
    | some e => { logs := r1.1, exc := some e, model := model_object }
    | none =>
      let r2 := urdf_service_block env
      let r3 := final_call_block env model_object r2.2 r1.2.1 pose_msg
      { logs := r1.1 ++ r2.1 ++ r3.1, exc := r3.2, model := model_object }
  else
    let l1 := [SpawnAction.logErr ("Error: Model type not know, model_type = " ++ model_object.type)]
    let r4 := final_call_block env model_object none none pose_msg
    { logs := l1 ++ r4.1, exc := r4.2, model := model_object }

/-- Projection selecting the service waits among the emitted actions. -/
def isWait : SpawnAction → Bool
  | .waitForService _ _ => true
  | _ => false

/-- The service-wait actions of a trace. -/
def waitsOf (l : List SpawnAction) : List SpawnAction := l.filter (fun a => isWait a)

/-- Projection selecting the remote spawn calls among the emitted actions. -/
def isSpawnCall : SpawnAction → Bool
  | .spawnCall _ _ _ => true
  | _ => false

/-- The remote spawn-call actions of a trace. -/
def spawnCallsOf (l : List SpawnAction) : List SpawnAction := l.filter (fun a => isSpawnCall a)

/-- Actions of the `__main__` spawning loop: a `spawn_model(m[key])` call and
a `rospy.sleep` of the configured duration. -/
inductive MainAction where
  | spawn (key : String)
  | sleep (seconds : ℚ)
deriving DecidableEq

/-- Python `m[key]` on the registry dict. -/
def dictGet : List (String × Model) → String → Option Model
  | [], _ => none
  | (k', v) :: rest, k => if k' = k then some v else dictGet rest k

/-- Python `del m[key]` on the registry dict. -/
def dictDel : List (String × Model) → String → List (String × Model)
  | [], _ => []
  | (k', v) :: rest, k => if k' = k then rest else (k', v) :: dictDel rest k

/-- Lines 234-239 (the non-randomized branch): spawn each stored entry in
order, sleeping for `time_interval` after each spawn when it is positive.
The branch has no exception handler, so when a `spawn_model` call raises
(its `exc` is `some`), the exception propagates: the loop stops after that
call, the sleep and the remaining entries are skipped, and the exception
escapes with the trace. -/
noncomputable def spawn_loop (env : Env) : List (String × Model) → ℚ → List MainAction × Option Exc
  | [], _ => ([], none)
  | (k, mo) :: rest, t =>
    match (spawn_model env mo).exc with
    | some e => ([MainAction.spawn k], some e)
    | none =>
        let r := spawn_loop env rest t
        (MainAction.spawn k ::
          ((if 0 < t then [MainAction.sleep t] else []) ++ r.1), r.2)

/-- Lines 219-231 (the randomized branch): iterate the list produced by
`random.sample(m.keys(), len(m))`, looking each key up, spawning it, deleting
it from the dict and sleeping.  The whole loop sits in a `try` with a bare
`except: pass`, so a `KeyError` on the lookup — and equally an exception
raised by the `spawn_model` call — silently ends the loop, skipping the
remaining keys. -/
noncomputable def random_spawn_loop (env : Env) :
    List String → List (String × Model) → ℚ → List MainAction
  | [], _, _ => []
  | k :: rest, m, t =>
    match dictGet m k with
    | none => []
    | some mo =>
      match (spawn_model env mo).exc with
      | some _ => [MainAction.spawn k]
      | none =>
          MainAction.spawn k ::
            ((if 0 < t then [MainAction.sleep t] else []) ++
              random_spawn_loop env rest (dictDel m k) t)

/-- Lines 217-239: dispatch on the randomized-order flag.  `sample` stands
for the permutation returned by `random.sample(m.keys(), len(m))`.  Only the
non-randomized branch lets an exception escape the process; the randomized
branch swallows it. -/
noncomputable def object_spawner_main (env : Env) (random_order : Bool) (sample : List String)
    (m : List (String × Model)) (time_interval : ℚ) : List MainAction × Option Exc :=
  if random_order then (random_spawn_loop env sample m time_interval, none)
  else spawn_loop env m time_interval

/-- The schedule of an uninterrupted run over the given keys: one spawn per
key in order, with the sleep after each spawn when the interval is
positive. -/
def scheduleOf : List String → ℚ → List MainAction
  | [], _ => []
  | k :: rest, t =>
      MainAction.spawn k ::
        ((if 0 < t then [MainAction.sleep t] else []) ++ scheduleOf rest t)

/-- The schedule the spec describes for a positive inter-spawn delay: a fixed
sleep after each spawn. -/
def delayedSchedule (keys : List String) (t : ℚ) : List MainAction :=
  (keys.map (fun k => [MainAction.spawn k, MainAction.sleep t])).flatten

/-- The schedule the spec describes for a non-positive delay: the bare
spawns. -/
def plainSchedule (keys : List String) : List MainAction :=
  keys.map MainAction.spawn

/-- The keys passed to `spawn_model`, in order, in a trace of the main
loop. -/
def spawnedKeys (l : List MainAction) : List String :=
  l.filterMap (fun a => match a with | .spawn k => some k | .sleep _ => none)


/-- A healthy external world: the package resolves, files are readable, both
services are available and the remote call reports success. -/
def envStub : Env :=
  { getPath := fun _ => some "/opt/ros/share/demo_pkg"
    readFile := fun _ => some "<sdf></sdf>"
    sdfServiceUp := true
    urdfServiceUp := true
    spawnResult := some (true, "SpawnModel: Successfully spawned entity") }

/-- The healthy world except that the remote spawn call fails by raising
`ServiceException`. -/
def envFailCall : Env :=
  { envStub with spawnResult := none }

/-- A fully specified URDF model entry. -/
def urdfModel : Model :=
  { name := "table", type := "urdf", package := "demo_pkg",
    unique_name := some "table", pose := some [0, 0, 0, 0, 0, 0] }

/-- A fully specified SDF model entry. -/
def sdfModel : Model :=
  { name := "crate", type := "sdf", package := "demo_pkg",
    unique_name := some "crate", pose := some [1, 2, 0, 0, 0, 0] }

/-- A geometric-primitive model entry of type `box`. -/
def boxModel : Model :=
  { name := "box1", type := "box", unique_name := some "box1",
    pose := some [0, 0, 0, 0, 0, 0] }

/-- A Euler-angle model entry: identity position, roll of 90 degrees. -/
def eulerModel : Model :=
  { name := "crate", type := "sdf", package := "demo_pkg",
    unique_name := some "crate", pose := some [0, 0, 0, 90, 0, 0] }

/-- A YAML entry that carries an explicit `unique_name` key. -/
def entryWithUnique : YamlEntry :=
  { name := "a", type := "sdf", unique_name := some "u" }

/-- A YAML entry without a `unique_name` key. -/
def entryPlainB : YamlEntry :=
  { name := "b", type := "sdf" }

/-- A YAML entry named `a`, without a `unique_name` key. -/
def entryPlainA : YamlEntry :=
  { name := "a", type := "sdf" }

/-- A YAML entry whose declared name `a_1` already carries a `_N` suffix. -/
def entrySuffixed : YamlEntry :=
  { name := "a_1", type := "sdf" }

/-- A filesystem oracle holding one configuration file everywhere. -/
def fsStub : List Char → Option (List YamlEntry) :=
  fun _ => some [entryPlainB]

/-- A rospkg oracle resolving every package to the path `/r`. -/
def gpStub : String → Option (List Char) :=
  fun _ => some ['/', 'r']

/-- A registry whose first stored entry is a urdf model (whose spawn raises)
followed by an sdf model. -/
def abortRegistry : List (String × Model) :=
  [("table", urdfModel), ("crate", sdfModel)]

/-- A second sdf model for the two-entry registry of clean spawns. -/
def sdfModel2 : Model :=
  { name := "shelf", type := "sdf", package := "demo_pkg",
    unique_name := some "shelf", pose := some [0, 1, 0, 0, 0, 0] }

/-- A registry of two sdf models, both of which spawn cleanly under the
healthy environment. -/
def sdfRegistry : List (String × Model) :=
  [("crate", sdfModel), ("shelf", sdfModel2)]

theorem countOcc_append (x : String) (p q : List String) :
    countOcc x (p ++ q) = countOcc x p + countOcc x q := by
  induction p with
  | nil => simp [countOcc]
  | cons y ys ih =>
      show (if y = x then 1 else 0) + countOcc x (ys ++ q)
          = ((if y = x then 1 else 0) + countOcc x ys) + countOcc x q
      rw [ih, Nat.add_assoc]

theorem seenOf_snoc_self (p : List String) (x : String) :
    ∀ y, (if y = x then some (countOcc x p) else seenOf p y) = seenOf (p ++ [x]) y := by
  intro y
  by_cases hy : y = x
  · subst hy
    have hc : countOcc y (p ++ [y]) = countOcc y p + 1 := by
      rw [countOcc_append]; simp [countOcc]
    simp [seenOf, hc]
  · have hxy : ¬x = y := fun hh => hy hh.symm
    have hc : countOcc y (p ++ [x]) = countOcc y p := by
      rw [countOcc_append]
      simp [countOcc, hxy]
    rw [if_neg hy]
    simp [seenOf, hc]

theorem rename_duplicates_go_eq (l : List String) :
    ∀ (p : List String) (seen : String → Option Nat),
      (∀ x, seen x = seenOf p x) → rename_duplicates_go seen l = dedupFrom p l := by
  induction l with
  | nil => intro p seen _; rfl
  | cons x xs ih =>
    intro p seen h
    by_cases hx : countOcc x p = 0
    · have hseen : seen x = none := by rw [h x]; simp [seenOf, hx]
      simp only [rename_duplicates_go, dedupFrom, hseen, if_pos hx]
      refine congrArg _ (ih (p ++ [x]) _ (fun y => ?_))
      have h0 : countOcc x p = 0 := hx
      calc (if y = x then some 0 else seen y)
          = (if y = x then some (countOcc x p) else seenOf p y) := by
            rw [h y, h0]
        _ = seenOf (p ++ [x]) y := seenOf_snoc_self p x y
    · have hseen : seen x = some (countOcc x p - 1) := by rw [h x]; simp [seenOf, hx]
      have hsucc : countOcc x p - 1 + 1 = countOcc x p :=
        Nat.succ_pred_eq_of_pos (Nat.pos_of_ne_zero hx)
      simp only [rename_duplicates_go, dedupFrom, hseen, if_neg hx, hsucc]
      refine congrArg _ (ih (p ++ [x]) _ (fun y => ?_))
      calc (if y = x then some (countOcc x p) else seen y)
          = (if y = x then some (countOcc x p) else seenOf p y) := by rw [h y]
        _ = seenOf (p ++ [x]) y := seenOf_snoc_self p x y

theorem dedupFrom_length (l : List String) : ∀ p, (dedupFrom p l).length = l.length := by
  induction l with
  | nil => intro p; rfl
  | cons x xs ih => intro p; simp [dedupFrom, ih]

theorem dedupFrom_getD (l : List String) :
    ∀ (p : List String) (i : Nat), i < l.length →
      (dedupFrom p l).getD i "" =
        (if countOcc (l.getD i "") p + countOcc (l.getD i "") (l.take i) = 0 then l.getD i ""
         else l.getD i "" ++ "_"
           ++ toString (countOcc (l.getD i "") p + countOcc (l.getD i "") (l.take i))) := by
  induction l with
  | nil => intro p i hi; simp at hi
  | cons y ys ih =>
    intro p i hi
    cases i with
    | zero => simp [dedupFrom, countOcc]
    | succ j =>
      have hj : j < ys.length := by simpa using hi
      have hsum : countOcc (ys.getD j "") (p ++ [y]) + countOcc (ys.getD j "") (ys.take j)
          = countOcc (ys.getD j "") p + countOcc (ys.getD j "") (y :: ys.take j) := by
        rw [countOcc_append]
        simp only [countOcc]
        omega
      have hstep : dedupFrom p (y :: ys)
          = (if countOcc y p = 0 then y else y ++ "_" ++ toString (countOcc y p))
            :: dedupFrom (p ++ [y]) ys := rfl
      rw [hstep, List.getD_cons_succ, List.getD_cons_succ, List.take_succ_cons,
        ih (p ++ [y]) j hj, hsum]

/-- C4: `rename_duplicates` preserves the length and order of its input,
maps the first occurrence of each name to itself, and maps the (k+1)-th
occurrence of a name `x` (k ≥ 1) to `x_k`, the suffix being the occurrence
count in the preceding prefix. -/
theorem rename_duplicates_spec (old : List String) (i : Nat) (h : i < old.length) :
    (rename_duplicates old).length = old.length ∧
    (rename_duplicates old).getD i "" =
      (if countOcc (old.getD i "") (old.take i) = 0 then old.getD i ""
       else old.getD i "" ++ "_" ++ toString (countOcc (old.getD i "") (old.take i))) := by
  have he : rename_duplicates old = dedupFrom [] old :=
    rename_duplicates_go_eq old [] _ (fun x => by simp [seenOf, countOcc])
  constructor
  · rw [he]; exact dedupFrom_length old []
  · rw [he]
    have hchar := dedupFrom_getD old [] i h
    simpa [countOcc] using hchar

/-- Witness for C4 at the input `["a", "b", "a", "a"]` and index 3: the
fourth element is the third occurrence of `a` and becomes `a_2`. -/
theorem rename_duplicates_spec_witness :
    (rename_duplicates ["a", "b", "a", "a"]).length = (["a", "b", "a", "a"] : List String).length ∧
    (rename_duplicates ["a", "b", "a", "a"]).getD 3 "" =
      (if countOcc ((["a", "b", "a", "a"] : List String).getD 3 "")
            ((["a", "b", "a", "a"] : List String).take 3) = 0 then
        (["a", "b", "a", "a"] : List String).getD 3 ""
       else (["a", "b", "a", "a"] : List String).getD 3 "" ++ "_"
         ++ toString (countOcc ((["a", "b", "a", "a"] : List String).getD 3 "")
              ((["a", "b", "a", "a"] : List String).take 3))) :=
  rename_duplicates_spec ["a", "b", "a", "a"] 3 (by decide)

/-- C3 (counter-evidence): on the input `["a", "a_1", "a"]` the output of
`rename_duplicates` is `["a", "a_1", "a_1"]`, which is not pairwise distinct,
and the registry `parse_yaml` builds for three such model entries has only
two entries, the second being overwritten. -/
theorem rename_duplicates_collision :
    rename_duplicates ["a", "a_1", "a"] = ["a", "a_1", "a_1"] ∧
    ¬ (rename_duplicates ["a", "a_1", "a"]).Nodup ∧
    (parse_yaml_registry [entryPlainA, entrySuffixed, entryPlainA]).length = 2 ∧
    ([entryPlainA, entrySuffixed, entryPlainA] : List YamlEntry).length = 3 := by
  exact ⟨by decide, by decide, by decide, by decide⟩

/-- C2 (counter-evidence): in a configuration whose first entry carries an
explicit `unique_name` (`u`) and whose second entry (declared name `b`) does
not, the second model ends with `unique_name = u` — the counter of lines
102-106 skips entries whose name is already set, so it indexes the wrong
position of the de-duplicated name list — instead of its own declared name
`b`. -/
theorem parse_yaml_unique_name_misassigned :
    (parse_yaml_registry [entryWithUnique, entryPlainB]).map (fun q => (q.1, q.2.unique_name))
      = [("u", some "u"), ("b", some "u")] ∧
    (parse_yaml_registry [entryWithUnique, entryPlainB]).map (fun q => (q.1, q.2.unique_name))
      ≠ [("u", some "u"), ("b", some "b")] :=
  ⟨by decide, by decide⟩

/-- C9: for every non-empty relative path that does not start with a slash,
`parse_yaml` returns the same result on the path with a single leading slash
prepended; lines 71-72 strip exactly that slash. -/
theorem parse_yaml_leading_slash (fs : List Char → Option (List YamlEntry))
    (get_path : String → Option (List Char)) (package_name : String) (p : List Char)
    (hne : p ≠ []) (hns : p.head? ≠ some '/') :
    parse_yaml fs get_path package_name ('/' :: p) = parse_yaml fs get_path package_name p := by
  cases p with
  | nil => exact absurd rfl hne
  | cons c rest =>
    have hc : ¬ c = '/' := by simpa using hns
    cases get_path package_name <;> simp [parse_yaml, hc]

/-- Witness for C9 at the concrete path `cf` with stub oracles. -/
theorem parse_yaml_leading_slash_witness :
    parse_yaml fsStub gpStub "object_spawner" ('/' :: ['c', 'f']) =
      parse_yaml fsStub gpStub "object_spawner" ['c', 'f'] :=
  parse_yaml_leading_slash fsStub gpStub "object_spawner" ['c', 'f'] (by decide) (by decide)

theorem quaternion_from_euler_unit (roll pitch yaw : ℝ) :
    (quaternion_from_euler roll pitch yaw).1 ^ 2 + (quaternion_from_euler roll pitch yaw).2.1 ^ 2
      + (quaternion_from_euler roll pitch yaw).2.2.1 ^ 2
      + (quaternion_from_euler roll pitch yaw).2.2.2 ^ 2 = 1 := by
  simp only [quaternion_from_euler]
  linear_combination
    (Real.sin (pitch / 2) ^ 2 + Real.cos (pitch / 2) ^ 2)
        * (Real.sin (yaw / 2) ^ 2 + Real.cos (yaw / 2) ^ 2)
        * Real.sin_sq_add_cos_sq (roll / 2)
      + (Real.sin (yaw / 2) ^ 2 + Real.cos (yaw / 2) ^ 2) * Real.sin_sq_add_cos_sq (pitch / 2)
      + Real.sin_sq_add_cos_sq (yaw / 2)

/-- C5: for a model whose orientation is given as Euler angles, the
orientation `spawn_model` sends is the quaternion obtained by the standard
roll-pitch-yaw convention from the angles — multiplied by pi over 180 first
when the `radians` flag is off, taken unconverted when it is on — and that
quaternion has unit norm. -/
theorem spawn_pose_euler_spec (m : Model) (x y z r p yw : ℚ)
    (hq : m.quaternion = false) (hp : m.pose = some [x, y, z, r, p, yw]) :
    ((spawn_pose m).ox, (spawn_pose m).oy, (spawn_pose m).oz, (spawn_pose m).ow) =
      quaternion_from_euler
        (if m.radians then (r : ℝ) else (r : ℝ) * (Real.pi / 180))
        (if m.radians then (p : ℝ) else (p : ℝ) * (Real.pi / 180))
        (if m.radians then (yw : ℝ) else (yw : ℝ) * (Real.pi / 180)) ∧
    (spawn_pose m).ox ^ 2 + (spawn_pose m).oy ^ 2 + (spawn_pose m).oz ^ 2
      + (spawn_pose m).ow ^ 2 = 1 := by
  constructor
  · simp [spawn_pose, hq, hp, List.getD_cons_succ, List.getD_cons_zero]
  · simp only [spawn_pose, hq, hp, if_false, Option.getD_some, List.getD_cons_succ,
      List.getD_cons_zero, Bool.false_eq_true]
    exact quaternion_from_euler_unit _ _ _

/-- Witness for C5 at a model with a 90 degree roll. -/
theorem spawn_pose_euler_spec_witness :
    ((spawn_pose eulerModel).ox, (spawn_pose eulerModel).oy, (spawn_pose eulerModel).oz,
        (spawn_pose eulerModel).ow) =
      quaternion_from_euler
        (if eulerModel.radians then ((90 : ℚ) : ℝ) else ((90 : ℚ) : ℝ) * (Real.pi / 180))
        (if eulerModel.radians then ((0 : ℚ) : ℝ) else ((0 : ℚ) : ℝ) * (Real.pi / 180))
        (if eulerModel.radians then ((0 : ℚ) : ℝ) else ((0 : ℚ) : ℝ) * (Real.pi / 180)) ∧
    (spawn_pose eulerModel).ox ^ 2 + (spawn_pose eulerModel).oy ^ 2 + (spawn_pose eulerModel).oz ^ 2
      + (spawn_pose eulerModel).ow ^ 2 = 1 :=
  spawn_pose_euler_spec eulerModel 0 0 0 90 0 0 rfl rfl

theorem waitsOf_append (l1 l2 : List SpawnAction) :
    waitsOf (l1 ++ l2) = waitsOf l1 ++ waitsOf l2 := by
  simp [waitsOf]

theorem waitsOf_sdf_resolve (env : Env) (p b : String) :
    waitsOf (sdf_resolve_block env p b).1 = [] := by
  cases h : env.getPath p <;> simp [sdf_resolve_block, h, waitsOf, isWait]

theorem waitsOf_sdf_open (env : Env) (n : String) (mp mx : Option String) :
    waitsOf (sdf_open_block env n mp mx).1 = [] := by
  cases mp with
  | none => simp [sdf_open_block, waitsOf, isWait]
  | some mp =>
      cases h : env.readFile (mp ++ "/" ++ n ++ "/model.sdf") <;>
        simp [sdf_open_block, h, waitsOf, isWait]

theorem waitsOf_sdf_service (env : Env) :
    waitsOf (sdf_service_block env).1
      = [SpawnAction.waitForService "gazebo/spawn_sdf_model" (some 5)] := by
  by_cases h : env.sdfServiceUp <;> simp [sdf_service_block, h, waitsOf, isWait]

theorem waitsOf_urdf_service (env : Env) :
    waitsOf (urdf_service_block env).1
      = [SpawnAction.waitForService "gazebo/spawn_urdf_model" none] := by
  by_cases h : env.urdfServiceUp <;> simp [urdf_service_block, h, waitsOf, isWait]

theorem waitsOf_final_call (env : Env) (m : Model) (prox mx : Option String) (pm : PoseMsg) :
    waitsOf (final_call_block env m prox mx pm).1 = [] := by
  cases prox with
  | none => simp [final_call_block, waitsOf, isWait]
  | some prx =>
    cases mx with
    | none => simp [final_call_block, waitsOf, isWait]
    | some xml =>
      cases h : env.spawnResult with
      | none => simp [final_call_block, h, waitsOf, isWait]
      | some res =>
          cases res with
          | mk b msg => cases b <;> simp [final_call_block, h, waitsOf, isWait]

theorem urdf_resolve_block_logs (env : Env) (p : String) :
    (urdf_resolve_block env p).1 = [] := by
  cases h : env.getPath p <;> simp [urdf_resolve_block, h]

theorem urdf_resolve_block_exc (env : Env) (p : String) :
    (urdf_resolve_block env p).2.2
      = some (match env.getPath p with
              | none => Exc.resourceNotFound
              | some _ => Exc.typeError) := by
  cases h : env.getPath p <;> simp [urdf_resolve_block, h]

/-- C10: `spawn_model` leaves every field of the model object unchanged; in
particular the pose list is only read (the degree-to-radian conversion
rebinds locals, lines 131-133, and never assigns into the list). -/
theorem spawn_model_preserves_model (env : Env) (m : Model) :
    (spawn_model env m).model = m := by
  by_cases h1 : m.type = "sdf"
  · simp [spawn_model, h1]
  · by_cases h2 : m.type = "urdf"
    · cases h3 : (urdf_resolve_block env m.package).2.2 <;> simp [spawn_model, h1, h2, h3]
    · simp [spawn_model, h1, h2]

/-- C1 (counter-evidence): `spawn_model` can propagate an exception that
aborts the spawning loop.  In a fully healthy external world every urdf model
raises `TypeError` (line 170 concatenates a `pathlib.Path` with a string),
and when the remote sdf spawn call fails by raising `ServiceException`, the
handler at line 199 (which catches only `UnboundLocalError`) lets it
escape. -/
theorem spawn_model_propagates_exception :
    (spawn_model envStub urdfModel).exc = some Exc.typeError ∧
    (spawn_model envFailCall sdfModel).exc = some Exc.serviceException := by
  exact ⟨rfl, rfl⟩

/-- C6 (counter-evidence): for a geometric-primitive model of type `box`,
`spawn_model` only logs the `Model type not know` error; it emits no service
wait and no remote spawn call, in every environment. -/
theorem spawn_model_box_rejected (env : Env) :
    (spawn_model env boxModel).logs =
      [SpawnAction.logErr "Error: Model type not know, model_type = box",
       SpawnAction.printLine "Now spawning: box1",
       SpawnAction.logDebug "Cannot find package []"] ∧
    spawnCallsOf (spawn_model env boxModel).logs = [] ∧
    waitsOf (spawn_model env boxModel).logs = [] ∧
    (spawn_model env boxModel).exc = none := by
  exact ⟨rfl, rfl, rfl, rfl⟩

/-- C7 (evidence): every sdf dispatch waits for its service with the bounded
5 second timeout, but the urdf service wait of lines 177-184 passes no
timeout at all — and `spawn_model` on a urdf model in fact raises before
reaching any service wait. -/
theorem spawn_service_wait_timeouts :
    (∀ (env : Env) (m : Model), m.type = "sdf" →
        waitsOf (spawn_model env m).logs
          = [SpawnAction.waitForService "gazebo/spawn_sdf_model" (some 5)]) ∧
    (∀ env : Env, waitsOf (urdf_service_block env).1
        = [SpawnAction.waitForService "gazebo/spawn_urdf_model" none]) ∧
    (∀ (env : Env) (m : Model), m.type = "urdf" →
        waitsOf (spawn_model env m).logs = []) := by
  refine ⟨fun env m hm => ?_, fun env => waitsOf_urdf_service env, fun env m hm => ?_⟩
  · simp [spawn_model, hm, waitsOf_append, waitsOf_sdf_resolve, waitsOf_sdf_open,
      waitsOf_sdf_service, waitsOf_final_call]
  · simp [spawn_model, hm, urdf_resolve_block_exc, urdf_resolve_block_logs, waitsOf]

/-- Witness for C7 with the healthy environment, an sdf model and a urdf
model. -/
theorem spawn_service_wait_timeouts_witness :
    waitsOf (spawn_model envStub sdfModel).logs
        = [SpawnAction.waitForService "gazebo/spawn_sdf_model" (some 5)] ∧
    waitsOf (urdf_service_block envStub).1
        = [SpawnAction.waitForService "gazebo/spawn_urdf_model" none] ∧
    waitsOf (spawn_model envStub urdfModel).logs = [] :=
  ⟨spawn_service_wait_timeouts.1 envStub sdfModel rfl,
   spawn_service_wait_timeouts.2.1 envStub,
   spawn_service_wait_timeouts.2.2 envStub urdfModel rfl⟩

theorem dictGet_eq_some_of_mem {m : List (String × Model)} {k : String}
    (h : k ∈ m.map Prod.fst) : ∃ v, dictGet m k = some v := by
  induction m with
  | nil => simp at h
  | cons q rest ih =>
    cases q with
    | mk k' v' =>
      by_cases hk : k' = k
      · exact ⟨v', by simp [dictGet, hk]⟩
      · have hmem : k ∈ rest.map Prod.fst := by
          rcases (by simpa using h : k = k' ∨ k ∈ rest.map Prod.fst) with h1 | h1
          · exact absurd h1.symm hk
          · exact h1
        obtain ⟨v, hv⟩ := ih hmem
        exact ⟨v, by simp [dictGet, hk, hv]⟩

theorem dictDel_map_fst (m : List (String × Model)) (k : String)
    (h : (m.map Prod.fst).Nodup) :
    (dictDel m k).map Prod.fst = (m.map Prod.fst).erase k := by
  induction m with
  | nil => rfl
  | cons q rest ih =>
    cases q with
    | mk k' v' =>
      have hnd : (rest.map Prod.fst).Nodup := (List.nodup_cons.mp (by simpa using h)).2
      by_cases hk : k' = k
      · subst hk
        simp [dictDel, List.erase_cons]
      · simp [dictDel, hk, List.erase_cons, ih hnd]

theorem dictDel_nodup (m : List (String × Model)) (k : String)
    (h : (m.map Prod.fst).Nodup) : ((dictDel m k).map Prod.fst).Nodup := by
  rw [dictDel_map_fst m k h]
  exact h.erase k

theorem countOcc_perm {l1 l2 : List String} (h : l1.Perm l2) (x : String) :
    countOcc x l1 = countOcc x l2 := by
  induction h with
  | nil => rfl
  | cons a _ ih => simp [countOcc, ih]
  | swap a b l =>
      simp only [countOcc]
      omega
  | trans _ _ ih1 ih2 => exact ih1.trans ih2

theorem countOcc_eq_zero_of_not_mem {x : String} {l : List String} (h : x ∉ l) :
    countOcc x l = 0 := by
  induction l with
  | nil => rfl
  | cons y ys ih =>
      have hy : ¬ y = x := by
        intro hh
        subst hh
        exact h (List.mem_cons_self y ys)
      simp [countOcc, hy, ih (fun hm => h (List.mem_cons_of_mem y hm))]

theorem countOcc_of_nodup_mem {l : List String} {k : String}
    (hnd : l.Nodup) (hk : k ∈ l) : countOcc k l = 1 := by
  induction l with
  | nil => simp at hk
  | cons y ys ih =>
      rcases List.nodup_cons.mp hnd with ⟨hyn, hnd'⟩
      rcases List.mem_cons.mp hk with h1 | h1
      · subst h1
        simp [countOcc, countOcc_eq_zero_of_not_mem hyn]
      · have hy : ¬ y = k := by
          intro hh
          subst hh
          exact hyn h1
        simp [countOcc, hy, ih hnd' h1]

theorem dictGet_mem {m : List (String × Model)} {k : String} {v : Model}
    (h : dictGet m k = some v) : (k, v) ∈ m := by
  induction m with
  | nil => simp [dictGet] at h
  | cons q rest ih =>
    cases q with
    | mk k' v' =>
      by_cases hk : k' = k
      · subst hk
        simp [dictGet] at h
        subst h
        exact List.mem_cons_self _ _
      · simp [dictGet, hk] at h
        exact List.mem_cons_of_mem _ (ih h)

theorem dictDel_subset {m : List (String × Model)} {k : String} {q : String × Model}
    (h : q ∈ dictDel m k) : q ∈ m := by
  induction m with
  | nil => simp [dictDel] at h
  | cons p rest ih =>
    cases p with
    | mk k' v' =>
      by_cases hk : k' = k
      · subst hk
        simp [dictDel] at h
        exact List.mem_cons_of_mem _ h
      · rw [show dictDel ((k', v') :: rest) k = (k', v') :: dictDel rest k by
            simp [dictDel, hk]] at h
        rcases List.mem_cons.mp h with h1 | h1
        · exact h1 ▸ List.mem_cons_self _ _
        · exact List.mem_cons_of_mem _ (ih h1)

theorem spawn_loop_eq_scheduleOf (env : Env) (t : ℚ) :
    ∀ m : List (String × Model), (∀ q ∈ m, (spawn_model env q.2).exc = none) →
      spawn_loop env m t = (scheduleOf (m.map Prod.fst) t, none) := by
  intro m
  induction m with
  | nil => intro _; rfl
  | cons q rest ih =>
    intro hok
    cases q with
    | mk k mo =>
      have h1 : (spawn_model env mo).exc = none := hok (k, mo) (List.mem_cons_self _ _)
      have h2 : ∀ q ∈ rest, (spawn_model env q.2).exc = none :=
        fun q hq => hok q (List.mem_cons_of_mem _ hq)
      simp [spawn_loop, h1, scheduleOf, ih h2]

theorem random_spawn_loop_eq (env : Env) (sample : List String) (t : ℚ) :
    ∀ m : List (String × Model), (m.map Prod.fst).Nodup →
      sample.Perm (m.map Prod.fst) →
      (∀ q ∈ m, (spawn_model env q.2).exc = none) →
      random_spawn_loop env sample m t = scheduleOf sample t := by
  induction sample with
  | nil => intro m _ _ _; rfl
  | cons k rest ih =>
    intro m hnd hperm hok
    have hk : k ∈ m.map Prod.fst := hperm.subset (List.mem_cons_self k rest)
    obtain ⟨v, hv⟩ := dictGet_eq_some_of_mem hk
    have hex : (spawn_model env v).exc = none := hok (k, v) (dictGet_mem hv)
    have hrest : rest.Perm ((m.map Prod.fst).erase k) :=
      (List.cons_perm_iff_perm_erase.mp hperm).2
    have hndd : ((dictDel m k).map Prod.fst).Nodup := dictDel_nodup m k hnd
    have hperm' : rest.Perm ((dictDel m k).map Prod.fst) := by
      rw [dictDel_map_fst m k hnd]
      exact hrest
    have hok' : ∀ q ∈ dictDel m k, (spawn_model env q.2).exc = none :=
      fun q hq => hok q (dictDel_subset hq)
    simp [random_spawn_loop, hv, hex, scheduleOf, ih (dictDel m k) hndd hperm' hok']

theorem spawnedKeys_scheduleOf (keys : List String) (t : ℚ) :
    spawnedKeys (scheduleOf keys t) = keys := by
  induction keys with
  | nil => rfl
  | cons k rest ih =>
      by_cases h : 0 < t <;> simp [scheduleOf, spawnedKeys, h] <;>
        simpa [spawnedKeys] using ih

theorem scheduleOf_pos (keys : List String) (t : ℚ) (h : 0 < t) :
    scheduleOf keys t = delayedSchedule keys t := by
  induction keys with
  | nil => rfl
  | cons k rest ih => simp [scheduleOf, delayedSchedule, h, ih]

theorem scheduleOf_nonpos (keys : List String) (t : ℚ) (h : ¬ 0 < t) :
    scheduleOf keys t = plainSchedule keys := by
  induction keys with
  | nil => rfl
  | cons k rest ih => simp [scheduleOf, plainSchedule, h, ih]

theorem sdfRegistry_ok : ∀ q ∈ sdfRegistry, (spawn_model envStub q.2).exc = none := by
  intro q hq
  rcases List.mem_cons.mp hq with h | h
  · rw [h]
    rfl
  · rcases List.mem_cons.mp h with h1 | h1
    · rw [h1]
      rfl
    · simp at h1

/-- C8 (counterexample): with the registry storing the urdf model `table`
before the sdf model `crate`, under the healthy environment and the
non-randomized order, the loop passes `table` to `spawn_model`, that call
raises `TypeError` which escapes the handlerless loop, and `crate` is never
passed — refuting that each model in the registry is passed to `spawn_model`
exactly once. -/
theorem object_spawner_main_abort_counterexample :
    spawnedKeys (object_spawner_main envStub false [] abortRegistry 1).1 = ["table"] ∧
    countOcc "crate" (spawnedKeys (object_spawner_main envStub false [] abortRegistry 1).1) = 0 ∧
    (object_spawner_main envStub false [] abortRegistry 1).2 = some Exc.typeError :=
  ⟨rfl, rfl, rfl⟩

/-- C8 (amended): when no `spawn_model` call of the run raises, the main
loop is sequential and passes each registry key to `spawn_model` exactly
once — in stored order when the randomized-order flag is off and in the
sampled permutation when it is on — inserting the fixed sleep after each
spawn exactly when the configured interval is positive, and no exception
escapes the loop.  (A raising call truncates the run at that model: the
exception propagates in the non-randomized branch and is swallowed by the
bare `except` in the randomized one.) -/
theorem object_spawner_main_spec (env : Env) (random_order : Bool) (sample : List String)
    (m : List (String × Model)) (time_interval : ℚ)
    (hnd : (m.map Prod.fst).Nodup)
    (hperm : random_order = true → sample.Perm (m.map Prod.fst))
    (hok : ∀ q ∈ m, (spawn_model env q.2).exc = none) :
    spawnedKeys (object_spawner_main env random_order sample m time_interval).1
        = (if random_order then sample else m.map Prod.fst) ∧
    (∀ k, k ∈ m.map Prod.fst →
        countOcc k
          (spawnedKeys (object_spawner_main env random_order sample m time_interval).1) = 1) ∧
    (0 < time_interval →
        (object_spawner_main env random_order sample m time_interval).1
          = delayedSchedule (if random_order then sample else m.map Prod.fst) time_interval) ∧
    (¬ 0 < time_interval →
        (object_spawner_main env random_order sample m time_interval).1
          = plainSchedule (if random_order then sample else m.map Prod.fst)) ∧
    (object_spawner_main env random_order sample m time_interval).2 = none := by
  have hmain : object_spawner_main env random_order sample m time_interval
      = (scheduleOf (if random_order then sample else m.map Prod.fst) time_interval, none) := by
    cases random_order with
    | false =>
        simp only [object_spawner_main, Bool.false_eq_true, if_false]
        exact spawn_loop_eq_scheduleOf env time_interval m hok
    | true =>
        simp only [object_spawner_main, if_pos]
        rw [random_spawn_loop_eq env sample time_interval m hnd (hperm rfl) hok]
  have hkeys : (if random_order then sample else m.map Prod.fst).Perm (m.map Prod.fst) := by
    cases random_order with
    | false => simp
    | true => simpa using hperm rfl
  refine ⟨?_, ?_, ?_, ?_, ?_⟩
  · rw [hmain]
    exact spawnedKeys_scheduleOf _ _
  · intro k hk
    rw [hmain]
    show countOcc k (spawnedKeys (scheduleOf _ _)) = 1
    rw [spawnedKeys_scheduleOf, countOcc_perm hkeys k]
    exact countOcc_of_nodup_mem hnd hk
  · intro ht
    rw [hmain]
    exact scheduleOf_pos _ _ ht
  · intro ht
    rw [hmain]
    exact scheduleOf_nonpos _ _ ht
  · rw [hmain]

/-- Witness for C8 (amended): randomized order over two sdf models that
spawn cleanly, with the sample reversing the stored order and a one second
interval. -/
theorem object_spawner_main_spec_witness :
    spawnedKeys (object_spawner_main envStub true ["shelf", "crate"] sdfRegistry 1).1
        = (if true then ["shelf", "crate"] else sdfRegistry.map Prod.fst) ∧
    countOcc "crate"
        (spawnedKeys (object_spawner_main envStub true ["shelf", "crate"] sdfRegistry 1).1) = 1 :=
  ⟨(object_spawner_main_spec envStub true ["shelf", "crate"] sdfRegistry 1 (by decide)
      (fun _ => by decide) sdfRegistry_ok).1,
   (object_spawner_main_spec envStub true ["shelf", "crate"] sdfRegistry 1 (by decide)
      (fun _ => by decide) sdfRegistry_ok).2.1 "crate" (by decide)⟩
